import Mathlib

/-!
Shallow embedding of the TCP chess session server (`chess_server.py`):
connection sessions, FIFO matchmaking, the per-game dispatch handlers and
the disconnect/forfeit path, together with theorems checking the
natural-language specification against this embedding.

The rules engine (`chess_logic`) is an external collaborator whose source
is not among the provided files; the narrow contract the server consumes
from it (board handle, side to move, move-token constructor, make_move,
terminal result, check query) is modelled from the spec where noted, and
parameterised where the server only forwards its answers.
-/

namespace TCPChess

/-- Modelled from the spec: the `chess_logic.Board` handle, absent from the
provided sources.  The server reads `board.turn` (`'w'`/`'b'`), `board.fen()`,
`board.result` (falsy while the game is undecided, hence `Option`; `"1-0"`,
`"0-1"` or a draw marker once terminal) and a check query for a given side,
modelled by the two check flags. -/
structure Board where
  turn : Char
  fen : String
  result : Option String
  checkW : Bool
  checkB : Bool
deriving DecidableEq, Repr

/-- Modelled from the spec: the rules engine's check-detection query for a
given side (`Game._in_check` delegates to board internals). -/
def inCheck (b : Board) (colorChar : Char) : Bool :=
  if colorChar = 'w' then b.checkW else b.checkB

/-- Modelled from the spec: `chess_logic.Board()` starts from the initial
chess position, white to move, no result. -/
def Board.initial : Board :=
  { turn := 'w'
  , fen := "rnbqkbnr/pppppppp/8/8/8/8/PPPPPPPP/RNBQKBNR w KQkq - 0 1"
  , result := none
  , checkW := false
  , checkB := false }

def isFileChar (c : Char) : Bool := 'a' ≤ c && c ≤ 'h'

def isRankChar (c : Char) : Bool := '1' ≤ c && c ≤ '8'

def isPromoChar (c : Char) : Bool := c = 'q' || c = 'r' || c = 'b' || c = 'n'

/-- Modelled from the spec: the `chess_logic.Move` constructor, absent from
the provided sources.  The spec describes the move field as a "4–5 char move
token" (from-square, to-square, optional promotion piece) and treats
`"e7e5x"` as an illegal token.  `Move_parse` returns the token where the
constructor succeeds and `none` where it raises. -/
def Move_parse (s : String) : Option String :=
  match s.toList with
  | [a, b, c, d] =>
      if isFileChar a && isRankChar b && isFileChar c && isRankChar d then some s else none
  | [a, b, c, d, e] =>
      if isFileChar a && isRankChar b && isFileChar c && isRankChar d && isPromoChar e then
        some s
      else none
  | _ => none

/-- The rules-engine operation the server forwards to: `board.make_move(mv)`
returns an acceptance flag and a rejection reason, mutating the board.  The
server treats it as a black box, so the embedding is parameterised by it. -/
structure Engine where
  makeMove : Board → String → Bool × String × Board

/-- The two seats of a game session. -/
inductive Player
  | white
  | black
deriving DecidableEq, Repr

/-- `Game._peer`: the other seat. -/
def Player.other : Player → Player
  | .white => .black
  | .black => .white

/-- The `ClientHandler` fields the server mutates: display name, the
`in_game` flag, the game back-reference (present or cleared), the assigned
color and the alive flag. -/
structure ClientState where
  name : String
  inGame : Bool
  hasGame : Bool
  color : Option String
  alive : Bool
deriving DecidableEq, Repr

/-- A server→client message, one constructor per catalog entry the game
paths emit. -/
inductive Msg
  | welcome (ok : Bool)
  | queued (pos : Nat)
  | start (color : String) (opponent : String)
  | state (fen : String) (turn : String) (check : Bool)
  | moveOk (uci : String) (mover : Option String)
  | illegal (reason : String)
  | chat (sender : String) (text : String)
  | result (outcome : String) (winner : Option String)
  | opponentLeft
deriving DecidableEq, Repr

/-- A client→server message as dispatched by `Game.process_message` on the
`type` field.  For `move`, `none` models a `uci` field that is absent or not
a string. -/
inductive ClientMsg
  | move (uci : Option String)
  | chat (text : String)
  | resign
  | quit
  | other (mtype : String)
deriving DecidableEq, Repr

/-- The mutable state of one `Game`: the two client handlers, the board
handle and the `ended` flag. -/
structure GameState where
  white : ClientState
  black : ClientState
  board : Board
  ended : Bool
deriving DecidableEq, Repr

def GameState.client (g : GameState) : Player → ClientState
  | .white => g.white
  | .black => g.black

def colorOf (g : GameState) (p : Player) : Option String :=
  (g.client p).color

def nameOf (g : GameState) (p : Player) : String :=
  (g.client p).name

/-- `Game.__init__`: link the two popped clients, first as white, second as
black, over a fresh board. -/
def Game.create (a b : ClientState) : GameState :=
  { white := { a with inGame := true, hasGame := true, color := some "white" }
  , black := { b with inGame := true, hasGame := true, color := some "black" }
  , board := Board.initial
  , ended := false }

/-- The outbox of one handler run: messages paired with their recipient, in
send order. -/
abbrev Outbox := List (Player × Msg)

/-- `"white"` or `"black"` for the side to move, as the server computes it
from `board.turn`. -/
def expectedColor (b : Board) : String :=
  if b.turn = 'w' then "white" else "black"

/-- `Game._send_state`: one state message (fen, side to move, check flag of
the side to move) to white, then the same to black. -/
def sendStateMsgs (b : Board) : Outbox :=
  [ (Player.white, Msg.state b.fen (expectedColor b) (inCheck b b.turn))
  , (Player.black, Msg.state b.fen (expectedColor b) (inCheck b b.turn)) ]

/-- `Game._end_game`: set `ended`, detach both clients (clear `in_game`, the
game back-reference and the assigned color). -/
def endGame (g : GameState) : GameState :=
  { g with
      ended := true
      white := { g.white with inGame := false, hasGame := false, color := none }
      black := { g.black with inGame := false, hasGame := false, color := none } }

/-- `Game._handle_chat`: forward the text to the peer, tagged with the
sender's name. -/
def handleChat (g : GameState) (sender : Player) (text : String) :
    GameState × Outbox :=
  (g, [(sender.other, Msg.chat (nameOf g sender) text)])

/-- `Game._handle_resign`: no-op if ended; otherwise the peer's color wins
with outcome `"resign"`, sent to the sender then to the peer, then
`_end_game`. -/
def handleResign (g : GameState) (sender : Player) : GameState × Outbox :=
  if g.ended then (g, [])
  else
    let peer := sender.other
    let winner := colorOf g peer
    (endGame g,
      [ (sender, Msg.result "resign" winner)
      , (peer, Msg.result "resign" winner) ])

/-- `Game._handle_disconnect`: no-op if ended; otherwise the surviving peer
gets `opponent_left` then `result{forfeit, winner := peer.color}`, then
`_end_game`. -/
def handleDisconnect (g : GameState) (disconnected : Player) :
    GameState × Outbox :=
  if g.ended then (g, [])
  else
    let peer := disconnected.other
    (endGame g,
      [ (peer, Msg.opponentLeft)
      , (peer, Msg.result "forfeit" (colorOf g peer)) ])

/-- The terminal-result mapping of `Game._handle_move`: `"1-0"` is checkmate
for white, `"0-1"` checkmate for black, anything else stalemate with no
winner. -/
def mapResult (r : String) : String × Option String :=
  if r = "1-0" then ("checkmate", some "white")
  else if r = "0-1" then ("checkmate", some "black")
  else ("stalemate", none)

/-- `Game._handle_move`: reject a non-string `uci` with `"bad move format"`;
reject a sender whose color is not the side to move with `"not your turn"`;
reject a token the `Move` constructor refuses with `"bad uci"`; delegate to
`make_move` and forward its reason on rejection; on acceptance broadcast
`move_ok` and a fresh state to both, then map and broadcast a terminal
result and end the game when the board reports one. -/
def handleMove (eng : Engine) (g : GameState) (sender : Player)
    (uci : Option String) : GameState × Outbox :=
  match uci with
  | none => (g, [(sender, Msg.illegal "bad move format")])
  | some u =>
    if colorOf g sender ≠ some (expectedColor g.board) then
      (g, [(sender, Msg.illegal "not your turn")])
    else
      match Move_parse u with
      | none => (g, [(sender, Msg.illegal "bad uci")])
      | some mv =>
        match eng.makeMove g.board mv with
        | (false, reason, _) => (g, [(sender, Msg.illegal reason)])
        | (true, _, board') =>
          let g' := { g with board := board' }
          let accepted : Outbox :=
            [ (Player.white, Msg.moveOk mv (colorOf g sender))
            , (Player.black, Msg.moveOk mv (colorOf g sender)) ]
            ++ sendStateMsgs board'
          match board'.result with
          | none => (g', accepted)
          | some r =>
            let (outcome, winner) := mapResult r
            (endGame g',
              accepted ++
                [ (Player.white, Msg.result outcome winner)
                , (Player.black, Msg.result outcome winner) ])

/-- `Game.process_message`: the single serialized entry point; no-op once
`ended`, otherwise dispatch on the message type, unknown types answered with
`illegal "unknown command"`. -/
def process_message (eng : Engine) (g : GameState) (sender : Player) :
    ClientMsg → GameState × Outbox
  | m =>
    if g.ended then (g, [])
    else
      match m with
      | .move uci => handleMove eng g sender uci
      | .chat text => handleChat g sender text
      | .resign => handleResign g sender
      | .quit => handleDisconnect g sender
      | .other _ => (g, [(sender, Msg.illegal "unknown command")])

/-- A concrete engine used to instantiate parameterised theorems on closed
inputs; it rejects every move without touching the board. -/
def rejectEngine : Engine :=
  ⟨fun b _ => (false, "illegal move", b)⟩

/-- A concrete engine whose `make_move` accepts every move and reports the
terminal result `"1-0"`, used for closed instantiations. -/
def mateEngine : Engine :=
  ⟨fun b _ => (true, "", { b with turn := 'b', result := some "1-0" })⟩

def annSession : ClientState :=
  { name := "Ann", inGame := false, hasGame := false, color := none, alive := true }

def bobSession : ClientState :=
  { name := "Bob", inGame := false, hasGame := false, color := none, alive := true }

/-- A concrete active game between "Ann" (white) and "Bob" (black), used for
closed instantiations. -/
def demoGame : GameState := Game.create annSession bobSession

/-- The pairing step inside `matchmaking_thread` once the queue holds at
least two entries: `waiting_queue.pop(0)` twice, i.e. remove and return the
two oldest entries, leaving the rest untouched. -/
def dequeue_pair :
    List ClientState → Option (ClientState × ClientState × List ClientState)
  | a :: b :: rest => some (a, b, rest)
  | _ => none

/-- Modelled on Python's `str.strip()` as used by the handshake: drop
leading and trailing whitespace. -/
def pyStrip (s : String) : String :=
  ⟨(((s.data.dropWhile Char.isWhitespace).reverse).dropWhile Char.isWhitespace).reverse⟩

/-- The name-validation fragment of `client_thread`'s handshake.
`nameField` is `hello.get("name")`, with `none` modelling a missing or
non-string field.  Returns the messages sent to the client, the stored
display name (if the handshake proceeds to the queue) and whether the
connection was closed. -/
def handshake_name (nameField : Option String) : List Msg × Option String × Bool :=
  match nameField with
  | none => ([Msg.illegal "bad name"], none, true)
  | some s =>
    if pyStrip s = "" then ([Msg.illegal "bad name"], none, true)
    else ([], some (pyStrip s), false)

def digitChar (d : Nat) : Char :=
  match d with
  | 0 => '0' | 1 => '1' | 2 => '2' | 3 => '3' | 4 => '4'
  | 5 => '5' | 6 => '6' | 7 => '7' | 8 => '8' | _ => '9'

def natToDecAux : Nat → Nat → List Char
  | 0, _ => []
  | fuel + 1, n =>
    if n < 10 then [digitChar n]
    else natToDecAux fuel (n / 10) ++ [digitChar (n % 10)]

/-- Decimal rendering of a natural number, as Python's f-string interpolates
the suffix counter in `f"{original}_{i}"`. -/
def natToDec (n : Nat) : String := ⟨natToDecAux (n + 1) n⟩

/-- The value of the decimal digit list, used to invert `natToDec`. -/
def decVal (l : List Char) : Nat :=
  l.foldl (fun a c => 10 * a + (c.toNat - 48)) 0

/-- The suffixed name `f"{original}_{i}"` tried by the handshake's
uniqueness loop. -/
def candidate (original : String) (i : Nat) : String :=
  original ++ "_" ++ natToDec i

/-- The uniqueness loop of `client_thread` (`while client.name in taken`):
starting from the stored name with counter `i = 1`, bump the counter and
retry `f"{original}_{i}"` while the current name collides with a queued
name.  The Python loop is unbounded; `taken.length + 2` membership checks
are enough fuel, as proved below. -/
def uniquify_go (taken : List String) (original : String) :
    String → Nat → Nat → String
  | name, _, 0 => name
  | name, i, fuel + 1 =>
    if name ∈ taken then
      uniquify_go taken original (candidate original (i + 1)) (i + 1) fuel
    else name

/-- The display name stored after the handshake's uniqueness check against
the names in the waiting queue. -/
def uniquify (taken : List String) (original : String) : String :=
  uniquify_go taken original original 1 (taken.length + 2)

/-- The candidate tried after `t` failed membership checks that started at
`name` with counter `i`. -/
def candAt (original name : String) (i : Nat) : Nat → String
  | 0 => name
  | t + 1 => candidate original (i + t + 1)

/-- One `readline()` outcome on the connection's file handle: end of stream
(or a read error), or one line of text. -/
inductive ReadLine
  | eof
  | line (s : String)
deriving DecidableEq, Repr

/-- The outcome of `json.loads` on one line, abstracted: a decode error or a
decoded message value `m`. -/
inductive Decoded (μ : Type)
  | badJson
  | val (m : μ)
deriving DecidableEq, Repr

/-- The three outcomes of `recv_line`: the disconnect sentinel (`None`), the
distinguishable malformed marker (`{"__bad_json__": true}`), or the decoded
message. -/
inductive RecvResult (μ : Type)
  | disconnected
  | malformed
  | msg (m : μ)
deriving DecidableEq, Repr

/-- `recv_line`: end of stream yields the disconnect sentinel; a line that
fails to decode yields the malformed marker; otherwise the decoded
message. -/
def recv_line {μ : Type} (decode : String → Decoded μ) : ReadLine → RecvResult μ
  | .eof => .disconnected
  | .line s =>
    match decode s with
    | .badJson => .malformed
    | .val m => .msg m

/-- The post-handshake read loop of `client_thread` (`while client.alive`):
the disconnect sentinel marks the client dead and stops; the malformed
marker is answered with `illegal "bad json"` and the loop continues with the
next line; a decoded message is handed to the dispatch body `step` (lobby
handling or in-game forwarding), whose boolean says whether the loop
continues.  Returns the replies sent to this client and the final state. -/
def client_loop {σ μ : Type} (decode : String → Decoded μ)
    (aliveOf : σ → Bool) (setDead : σ → σ)
    (step : σ → μ → σ × List Msg × Bool) :
    σ → List ReadLine → List Msg × σ
  | s, [] => ([], s)
  | s, r :: rest =>
    if aliveOf s then
      match recv_line decode r with
      | .disconnected => ([], setDead s)
      | .malformed =>
        let (out, s') := client_loop decode aliveOf setDead step s rest
        (Msg.illegal "bad json" :: out, s')
      | .msg m =>
        match step s m with
        | (s', out, true) =>
          let (o, s'') := client_loop decode aliveOf setDead step s' rest
          (out ++ o, s'')
        | (s', out, false) => (out, s')
    else ([], s)

/-- A concrete decoder for closed instantiations: every line fails to
decode. -/
def alwaysBadDecode : String → Decoded Unit := fun _ => Decoded.badJson

/-- A concrete dispatch body for closed instantiations: reply nothing and
keep looping. -/
def idleStep : Bool → Unit → Bool × List Msg × Bool := fun s _ => (s, [], true)

/-- A variant of the demo game in which black is to move. -/
def demoGameBlackTurn : GameState :=
  { demoGame with board := { demoGame.board with turn := 'b' } }

/-! ## Theorems -/

/-- C1: once a game's `ended` flag is true it is never reset —
`process_message` and the disconnect/forfeit path are no-ops on an ended
game (they send no messages and change no state), so a game transitions to
`ENDED` at most once no matter how many triggers fire. -/
theorem ended_is_terminal (eng : Engine) (g : GameState) (s : Player)
    (m : ClientMsg) (h : g.ended = true) :
    process_message eng g s m = (g, []) ∧
    handleDisconnect g s = (g, []) ∧
    (process_message eng g s m).1.ended = true := by
  refine ⟨?_, ?_, ?_⟩
  · simp [process_message, h]
  · simp [handleDisconnect, h]
  · simp [process_message, h]

theorem ended_is_terminal_witness :
    (endGame demoGame).ended = true ∧
    process_message rejectEngine (endGame demoGame) Player.white ClientMsg.resign
      = (endGame demoGame, []) ∧
    handleDisconnect (endGame demoGame) Player.white = (endGame demoGame, []) :=
  ⟨rfl,
   (ended_is_terminal rejectEngine (endGame demoGame) Player.white ClientMsg.resign rfl).1,
   (ended_is_terminal rejectEngine (endGame demoGame) Player.white ClientMsg.resign rfl).2.1⟩

/-- C2 counterexample: on an active game with black to move, black sending
`move` with the ill-formed token `"e7e5x"` is answered with reason
`"bad uci"`, not `"bad move format"` — the latter is reserved for a `uci`
field that is not a string. -/
theorem bad_token_reason_counterexample :
    process_message rejectEngine demoGameBlackTurn Player.black
        (ClientMsg.move (some "e7e5x"))
      = (demoGameBlackTurn, [(Player.black, Msg.illegal "bad uci")]) ∧
    Msg.illegal "bad uci" ≠ Msg.illegal "bad move format" := by
  exact ⟨by decide, by decide⟩

/-- C2 (amended): a `move` whose `uci` field is absent or not a string is
answered — to the sender only — with `illegal "bad move format"` and no
state change; a `uci` string that fails to parse as a move token is answered
with `illegal "bad uci"` (the turn check having passed), again with no state
change and no broadcast. -/
theorem bad_move_format_reject (eng : Engine) (g : GameState) (s : Player)
    (h : g.ended = false) :
    process_message eng g s (ClientMsg.move none)
      = (g, [(s, Msg.illegal "bad move format")]) ∧
    ∀ u : String, colorOf g s = some (expectedColor g.board) →
      Move_parse u = none →
      process_message eng g s (ClientMsg.move (some u))
        = (g, [(s, Msg.illegal "bad uci")]) := by
  constructor
  · simp [process_message, h, handleMove]
  · intro u hc hp
    simp [process_message, h, handleMove, hc, hp]

theorem bad_move_format_reject_witness :
    demoGameBlackTurn.ended = false ∧
    process_message rejectEngine demoGameBlackTurn Player.black (ClientMsg.move none)
      = (demoGameBlackTurn, [(Player.black, Msg.illegal "bad move format")]) ∧
    process_message rejectEngine demoGameBlackTurn Player.black
        (ClientMsg.move (some "e7e5x"))
      = (demoGameBlackTurn, [(Player.black, Msg.illegal "bad uci")]) :=
  ⟨rfl,
   (bad_move_format_reject rejectEngine demoGameBlackTurn Player.black rfl).1,
   (bad_move_format_reject rejectEngine demoGameBlackTurn Player.black rfl).2
     "e7e5x" (by decide) (by decide)⟩

/-- C4: the disconnect/forfeit path on a not-yet-ended game sends the
surviving peer — and only the surviving peer — `opponent_left` followed by
`result{forfeit, winner := survivor's color}`, sends nothing to the
disconnected client, and ends the game. -/
theorem disconnect_forfeits_to_survivor (g : GameState) (p : Player)
    (h : g.ended = false) :
    handleDisconnect g p
      = (endGame g,
          [ (p.other, Msg.opponentLeft)
          , (p.other, Msg.result "forfeit" (colorOf g p.other)) ]) ∧
    (endGame g).ended = true ∧
    ∀ q m, (q, m) ∈ (handleDisconnect g p).2 → q = p.other := by
  refine ⟨by simp [handleDisconnect, h], by simp [endGame], ?_⟩
  intro q m hm
  simp [handleDisconnect, h] at hm
  rcases hm with ⟨hq, _⟩ | ⟨hq, _⟩ <;> exact hq

theorem disconnect_forfeits_to_survivor_witness :
    demoGame.ended = false ∧
    handleDisconnect demoGame Player.white
      = (endGame demoGame,
          [ (Player.black, Msg.opponentLeft)
          , (Player.black, Msg.result "forfeit" (some "black")) ]) :=
  ⟨rfl, (disconnect_forfeits_to_survivor demoGame Player.white rfl).1⟩

/-- C5: an in-game `resign` on a not-yet-ended game unconditionally declares
the sender's peer the winner: both peers receive
`result{resign, winner := peer's color}` and the game ends. -/
theorem resign_awards_peer (eng : Engine) (g : GameState) (s : Player)
    (h : g.ended = false) :
    process_message eng g s ClientMsg.resign
      = (endGame g,
          [ (s, Msg.result "resign" (colorOf g s.other))
          , (s.other, Msg.result "resign" (colorOf g s.other)) ]) ∧
    (endGame g).ended = true := by
  constructor
  · simp [process_message, h, handleResign]
  · simp [endGame]

theorem resign_awards_peer_witness :
    demoGame.ended = false ∧
    process_message rejectEngine demoGame Player.white ClientMsg.resign
      = (endGame demoGame,
          [ (Player.white, Msg.result "resign" (some "black"))
          , (Player.black, Msg.result "resign" (some "black")) ]) :=
  ⟨rfl, (resign_awards_peer rejectEngine demoGame Player.white rfl).1⟩

/-- C6: a `move` with a string `uci` field sent while the sender's color
differs from the rules engine's side to move is answered — to the sender
only — with `illegal "not your turn"`; the game state is returned unchanged
(board untouched, game not ended) and nothing is broadcast. -/
theorem wrong_turn_rejected (eng : Engine) (g : GameState) (s : Player)
    (u : String) (h : g.ended = false)
    (hc : colorOf g s ≠ some (expectedColor g.board)) :
    process_message eng g s (ClientMsg.move (some u))
      = (g, [(s, Msg.illegal "not your turn")]) := by
  simp [process_message, h, handleMove, hc]

theorem wrong_turn_rejected_witness :
    demoGame.ended = false ∧
    colorOf demoGame Player.black ≠ some (expectedColor demoGame.board) ∧
    process_message rejectEngine demoGame Player.black (ClientMsg.move (some "e7e5"))
      = (demoGame, [(Player.black, Msg.illegal "not your turn")]) :=
  ⟨rfl, by decide,
   wrong_turn_rejected rejectEngine demoGame Player.black "e7e5" rfl (by decide)⟩

/-- C3: matchmaking is strictly FIFO — whenever the waiting queue holds at
least two entries, the pairing step removes and returns exactly the two
oldest entries in insertion order, leaving the remaining entries in order;
the first popped seats as white, the second as black, so the first two
enqueued of any N ≥ 2 handshakes form the first game. -/
theorem matchmaking_fifo (q : List ClientState) (h : 2 ≤ q.length) :
    ∃ (h0 : 0 < q.length) (h1 : 1 < q.length),
      dequeue_pair q = some (q.get ⟨0, h0⟩, q.get ⟨1, h1⟩, q.drop 2) ∧
      (Game.create (q.get ⟨0, h0⟩) (q.get ⟨1, h1⟩)).white.color = some "white" ∧
      (Game.create (q.get ⟨0, h0⟩) (q.get ⟨1, h1⟩)).black.color = some "black" ∧
      (Game.create (q.get ⟨0, h0⟩) (q.get ⟨1, h1⟩)).white.name = (q.get ⟨0, h0⟩).name ∧
      (Game.create (q.get ⟨0, h0⟩) (q.get ⟨1, h1⟩)).black.name = (q.get ⟨1, h1⟩).name := by
  match q, h with
  | a :: b :: rest, _ =>
    exact ⟨by simp, by simp, rfl, rfl, rfl, rfl, rfl⟩

theorem matchmaking_fifo_witness :
    dequeue_pair [annSession, bobSession] = some (annSession, bobSession, []) ∧
    (Game.create annSession bobSession).white.color = some "white" ∧
    (Game.create annSession bobSession).black.color = some "black" := by
  obtain ⟨h0, h1, hd, hw, hb, -, -⟩ :=
    matchmaking_fifo [annSession, bobSession] (by decide)
  exact ⟨hd, hw, hb⟩

/-- C7: after an accepted move, a terminal board result is mapped — `"1-0"`
to checkmate/white, `"0-1"` to checkmate/black, anything else to stalemate
with no winner — broadcast to both peers as a `result` message, and the game
ends; a non-terminal board yields no `result` message and the game stays
active. -/
theorem terminal_result_mapping (eng : Engine) (g : GameState) (s : Player)
    (u mv reason : String) (b' : Board)
    (h : g.ended = false)
    (hc : colorOf g s = some (expectedColor g.board))
    (hp : Move_parse u = some mv)
    (hm : eng.makeMove g.board mv = (true, reason, b')) :
    (b'.result = none →
      process_message eng g s (ClientMsg.move (some u))
        = ({ g with board := b' },
            [ (Player.white, Msg.moveOk mv (colorOf g s))
            , (Player.black, Msg.moveOk mv (colorOf g s)) ]
              ++ sendStateMsgs b') ∧
      ({ g with board := b' } : GameState).ended = false) ∧
    (∀ res, b'.result = some res →
      process_message eng g s (ClientMsg.move (some u))
        = (endGame { g with board := b' },
            ([ (Player.white, Msg.moveOk mv (colorOf g s))
             , (Player.black, Msg.moveOk mv (colorOf g s)) ]
               ++ sendStateMsgs b')
              ++ [ (Player.white, Msg.result (mapResult res).1 (mapResult res).2)
                 , (Player.black, Msg.result (mapResult res).1 (mapResult res).2) ]) ∧
      (endGame { g with board := b' }).ended = true) ∧
    mapResult "1-0" = ("checkmate", some "white") ∧
    mapResult "0-1" = ("checkmate", some "black") ∧
    (∀ res, res ≠ "1-0" → res ≠ "0-1" → mapResult res = ("stalemate", none)) := by
  refine ⟨?_, ?_, by decide, by decide, ?_⟩
  · intro hres
    constructor
    · simp [process_message, h, handleMove, hc, hp, hm, hres]
    · exact h
  · intro res hres
    constructor
    · simp [process_message, h, handleMove, hc, hp, hm, hres]
    · simp [endGame]
  · intro res h1 h2
    simp [mapResult, h1, h2]

theorem terminal_result_mapping_witness :
    demoGame.ended = false ∧
    Move_parse "e2e4" = some "e2e4" ∧
    process_message mateEngine demoGame Player.white (ClientMsg.move (some "e2e4"))
      = (endGame { demoGame with
                     board := { demoGame.board with turn := 'b', result := some "1-0" } },
          ([ (Player.white, Msg.moveOk "e2e4" (some "white"))
           , (Player.black, Msg.moveOk "e2e4" (some "white")) ]
             ++ sendStateMsgs { demoGame.board with turn := 'b', result := some "1-0" })
            ++ [ (Player.white, Msg.result "checkmate" (some "white"))
               , (Player.black, Msg.result "checkmate" (some "white")) ]) :=
  ⟨rfl, by decide,
   ((terminal_result_mapping mateEngine demoGame Player.white "e2e4" "e2e4" ""
        { demoGame.board with turn := 'b', result := some "1-0" }
        rfl (by decide) (by decide) rfl).2.1 "1-0" rfl).1⟩

/-- C10: the handshake strips leading and trailing whitespace from the
submitted display name before storing it; a missing/non-string name field
or a whitespace-only name is answered with `illegal "bad name"` and the
connection is closed without the session entering the waiting queue. -/
theorem handshake_name_validation :
    (∀ s : String, pyStrip s ≠ "" →
      handshake_name (some s) = ([], some (pyStrip s), false)) ∧
    (∀ s : String, pyStrip s = "" →
      handshake_name (some s) = ([Msg.illegal "bad name"], none, true)) ∧
    handshake_name none = ([Msg.illegal "bad name"], none, true) := by
  refine ⟨?_, ?_, rfl⟩
  · intro s hs
    simp [handshake_name, hs]
  · intro s hs
    simp [handshake_name, hs]

theorem handshake_name_validation_witness :
    handshake_name (some "  Ann ") = ([], some "Ann", false) ∧
    handshake_name (some "   ") = ([Msg.illegal "bad name"], none, true) ∧
    handshake_name none = ([Msg.illegal "bad name"], none, true) :=
  ⟨handshake_name_validation.1 "  Ann " (by decide),
   handshake_name_validation.2.1 "   " (by decide),
   handshake_name_validation.2.2⟩

/-- C9: after the handshake, decoding one inbound line yields exactly one of
three outcomes — the disconnect sentinel for end-of-stream, the
distinguishable malformed marker, or the decoded message — and on the
malformed outcome the read loop replies to the sender with
`illegal "bad json"`, keeps the connection open (the state is untouched) and
continues with the next line. -/
theorem recv_trichotomy_and_bad_json {σ μ : Type} (decode : String → Decoded μ)
    (aliveOf : σ → Bool) (setDead : σ → σ)
    (step : σ → μ → σ × List Msg × Bool) :
    (∀ r : ReadLine,
      recv_line decode r = RecvResult.disconnected ∨
      recv_line decode r = RecvResult.malformed ∨
      ∃ m, recv_line decode r = RecvResult.msg m) ∧
    recv_line decode ReadLine.eof = RecvResult.disconnected ∧
    (∀ (ln : String) (s : σ) (rest : List ReadLine),
      decode ln = Decoded.badJson → aliveOf s = true →
      client_loop decode aliveOf setDead step s (ReadLine.line ln :: rest)
        = (Msg.illegal "bad json"
             :: (client_loop decode aliveOf setDead step s rest).1,
           (client_loop decode aliveOf setDead step s rest).2)) := by
  refine ⟨?_, rfl, ?_⟩
  · intro r
    cases r with
    | eof => exact Or.inl rfl
    | line s =>
      cases hd : decode s with
      | badJson => exact Or.inr (Or.inl (by simp [recv_line, hd]))
      | val m => exact Or.inr (Or.inr ⟨m, by simp [recv_line, hd]⟩)
  · intro ln s rest hd ha
    simp [client_loop, recv_line, hd, ha]

theorem recv_trichotomy_and_bad_json_witness :
    recv_line alwaysBadDecode ReadLine.eof = RecvResult.disconnected ∧
    client_loop alwaysBadDecode (fun s => s) (fun _ => false) idleStep true
        [ReadLine.line "not json", ReadLine.eof]
      = (Msg.illegal "bad json"
           :: (client_loop alwaysBadDecode (fun s => s) (fun _ => false) idleStep true
                 [ReadLine.eof]).1,
         (client_loop alwaysBadDecode (fun s => s) (fun _ => false) idleStep true
            [ReadLine.eof]).2) :=
  ⟨(recv_trichotomy_and_bad_json alwaysBadDecode (fun s => s) (fun _ => false)
      idleStep).2.1,
   (recv_trichotomy_and_bad_json alwaysBadDecode (fun s => s) (fun _ => false)
      idleStep).2.2 "not json" true [ReadLine.eof] rfl rfl⟩

theorem digitChar_toNat {d : Nat} (h : d < 10) : (digitChar d).toNat - 48 = d := by
  interval_cases d <;> rfl

theorem decVal_append_digit (l : List Char) (c : Char) :
    decVal (l ++ [c]) = 10 * decVal l + (c.toNat - 48) := by
  simp [decVal, List.foldl_append]

theorem decVal_natToDecAux : ∀ fuel n, n < fuel → decVal (natToDecAux fuel n) = n := by
  intro fuel
  induction fuel with
  | zero => intro n h; omega
  | succ f ih =>
    intro n h
    unfold natToDecAux
    by_cases h10 : n < 10
    · simp [h10, decVal]
      exact digitChar_toNat h10
    · rw [if_neg h10, decVal_append_digit]
      have hdiv : n / 10 < n := Nat.div_lt_self (by omega) (by norm_num)
      rw [ih (n / 10) (by omega)]
      have hd : (digitChar (n % 10)).toNat - 48 = n % 10 :=
        digitChar_toNat (Nat.mod_lt _ (by norm_num))
      omega

theorem natToDec_inj {m n : Nat} (h : natToDec m = natToDec n) : m = n := by
  have hd : natToDecAux (m + 1) m = natToDecAux (n + 1) n := congrArg String.data h
  have hm := decVal_natToDecAux (m + 1) m (by omega)
  have hn := decVal_natToDecAux (n + 1) n (by omega)
  rw [hd, hn] at hm
  omega

theorem candidate_inj (o : String) {i j : Nat} (h : candidate o i = candidate o j) :
    i = j := by
  apply natToDec_inj
  have hd : (candidate o i).data = (candidate o j).data := by rw [h]
  have hsplit : ∀ k : Nat,
      (candidate o k).data = (o.data ++ ['_']) ++ (natToDec k).data := by
    intro k
    show ((o ++ "_" ++ natToDec k)).data = _
    rfl
  rw [hsplit i, hsplit j] at hd
  have := List.append_cancel_left hd
  show natToDec i = natToDec j
  cases hi : natToDec i
  cases hj : natToDec j
  simp_all

theorem exists_fresh (taken : List String) (o : String) :
    ∃ j, j < taken.length + 1 ∧ candidate o (j + 2) ∉ taken := by
  by_contra hall
  push_neg at hall
  have hsub :
      ((List.range (taken.length + 1)).map (fun j => candidate o (j + 2))) ⊆ taken := by
    intro x hx
    simp only [List.mem_map, List.mem_range] at hx
    obtain ⟨j, hj, rfl⟩ := hx
    exact hall j hj
  have hnd :
      ((List.range (taken.length + 1)).map (fun j => candidate o (j + 2))).Nodup := by
    refine List.Nodup.map ?_ (List.nodup_range _)
    intro a b hab
    have := candidate_inj o hab
    omega
  have hlen := (List.subperm_of_subset hnd hsub).length_le
  simp at hlen

theorem candAt_shift (original name : String) (i : Nat) (t : Nat) :
    candAt original (candidate original (i + 1)) (i + 1) t
      = candAt original name i (t + 1) := by
  cases t with
  | zero => simp [candAt]
  | succ s =>
    show candidate original (i + 1 + s + 1) = candidate original (i + (s + 1) + 1)
    congr 1
    omega

theorem uniquify_go_spec (taken : List String) (original : String) :
    ∀ (fuel : Nat) (i : Nat) (name : String),
    (∃ t, t < fuel ∧ candAt original name i t ∉ taken) →
    ∃ t, t < fuel ∧ candAt original name i t ∉ taken ∧
      (∀ t', t' < t → candAt original name i t' ∈ taken) ∧
      uniquify_go taken original name i fuel = candAt original name i t := by
  intro fuel
  induction fuel with
  | zero =>
    intro i name h
    obtain ⟨t, ht, -⟩ := h
    omega
  | succ f ih =>
    intro i name h
    by_cases hname : name ∈ taken
    · obtain ⟨t, ht, hfree⟩ := h
      match t, hfree with
      | 0, hfree => exact absurd hname hfree
      | t' + 1, hfree =>
        have hpre : ∃ t'', t'' < f ∧
            candAt original (candidate original (i + 1)) (i + 1) t'' ∉ taken := by
          refine ⟨t', by omega, ?_⟩
          rw [candAt_shift original name]
          exact hfree
        obtain ⟨t0, ht0, hfree0, hmin0, heq0⟩ := ih (i + 1) (candidate original (i + 1)) hpre
        refine ⟨t0 + 1, by omega, ?_, ?_, ?_⟩
        · rw [← candAt_shift original name]
          exact hfree0
        · intro t2 ht2
          match t2 with
          | 0 => exact hname
          | t2' + 1 =>
            rw [← candAt_shift original name]
            exact hmin0 t2' (by omega)
        · show uniquify_go taken original name i (f + 1) = _
          rw [← candAt_shift original name]
          rw [← heq0]
          simp [uniquify_go, hname]
    · refine ⟨0, by omega, hname, by omega, ?_⟩
      simp [uniquify_go, hname, candAt]

theorem uniquify_run (taken : List String) (original : String) :
    ∃ t, t < taken.length + 2 ∧ candAt original original 1 t ∉ taken ∧
      (∀ t', t' < t → candAt original original 1 t' ∈ taken) ∧
      uniquify taken original = candAt original original 1 t := by
  have hex : ∃ t, t < taken.length + 2 ∧ candAt original original 1 t ∉ taken := by
    by_cases h : original ∈ taken
    · obtain ⟨j, hj, hfree⟩ := exists_fresh taken original
      refine ⟨j + 1, by omega, ?_⟩
      show candidate original (1 + j + 1) ∉ taken
      rwa [show 1 + j + 1 = j + 2 by omega]
    · exact ⟨0, by omega, h⟩
  exact uniquify_go_spec taken original (taken.length + 2) 1 original hex

/-- C8: the handshake's uniqueness loop stores a non-colliding name
unchanged; a name colliding with a queued name is stored as
`original_i` for the least free suffix `i ≥ 2` (every earlier suffix ≥ 2
collides), the stored name never collides with the queue, and concretely a
second "Alice" resolves to "Alice_2" and a third to "Alice_3". -/
theorem name_suffix_uniquify (taken : List String) (original : String) :
    (original ∉ taken → uniquify taken original = original) ∧
    (original ∈ taken →
      ∃ i, 2 ≤ i ∧ uniquify taken original = candidate original i ∧
        candidate original i ∉ taken ∧
        ∀ j, 2 ≤ j → j < i → candidate original j ∈ taken) ∧
    uniquify taken original ∉ taken ∧
    uniquify ["Alice"] "Alice" = "Alice_2" ∧
    uniquify ["Alice", "Alice_2"] "Alice" = "Alice_3" := by
  obtain ⟨t, ht, hfree, hmin, heq⟩ := uniquify_run taken original
  refine ⟨?_, ?_, ?_, by decide, by decide⟩
  · intro h
    rcases Nat.eq_zero_or_pos t with rfl | hpos
    · exact heq
    · exact absurd (hmin 0 hpos) h
  · intro h
    match t, hfree, hmin, heq with
    | 0, hfree, _, _ => exact absurd h hfree
    | t' + 1, hfree, hmin, heq =>
      refine ⟨t' + 2, by omega, ?_, ?_, ?_⟩
      · rw [heq]
        show candidate original (1 + t' + 1) = candidate original (t' + 2)
        congr 1
        omega
      · show candidate original (t' + 2) ∉ taken
        have h2 : candidate original (1 + t' + 1) ∉ taken := hfree
        rwa [show 1 + t' + 1 = t' + 2 by omega] at h2
      · intro j hj2 hji
        match j, hj2 with
        | j'' + 2, _ =>
          have h2 := hmin (j'' + 1) (by omega)
          show candidate original (j'' + 2) ∈ taken
          have h3 : candAt original original 1 (j'' + 1) = candidate original (j'' + 2) := by
            show candidate original (1 + j'' + 1) = _
            congr 1
            omega
          rwa [h3] at h2
  · rw [heq]
    exact hfree

theorem name_suffix_uniquify_witness :
    uniquify [] "Bob" = "Bob" ∧ uniquify ["Alice"] "Alice" = "Alice_2" :=
  ⟨(name_suffix_uniquify [] "Bob").1 (by decide),
   (name_suffix_uniquify ["Alice"] "Alice").2.2.2.1⟩

end TCPChess
